import Mathlib

/-!
Verification of the hyperlist virtual-scrolling engine.

This file gives a shallow embedding of the windowing core:

* the rewrite in `src/lib/index.js` (class `HyperList` with `_renderRows`,
  `_refreshWindow`, `_findRow`, `_displayRows`, `_removeRows`, `append`);
* the two classic variants in `src/unnamed/part_000` and `src/unnamed/part_001`
  (`refresh`, `_getRow`, `_renderChunk`, `_computePositions`,
  `_computeScrollHeight`, `_getFrom`, `_getReverseFrom`, and the
  per-frame render loop).

Pixel quantities (scroll offsets, row lengths, positions) are modelled as
integers, except for the median computation of `_computeScrollHeight`, whose
halving needs rationals.  JavaScript runtime failures (out-of-range element
reads, explicit `throw`) are modelled by `Option`/error results.
-/

namespace Hyper

/-- Row descriptor of `src/lib/index.js`: each row object carries a `length`
(extent along the scroll axis) and a `start` (cumulative offset, written by
`_renderRows` as the running `len`).  The externally owned `node` and the
`visible` flag play no role in the quantities verified here. -/
structure Row where
  length : ℤ
  start : ℤ
  deriving DecidableEq, Repr

/-- The window record `{start, end, first, last}` of `src/lib/index.js`
(line 220 and line 348).  `end` is a Lean keyword, so that field is named
`stop` here.  `first`/`last` are row indices with `-1` as the "no visible
row" sentinel, which is why they are integers. -/
structure Window where
  start : ℤ
  stop : ℤ
  first : ℤ
  last : ℤ
  deriving DecidableEq, Repr

/-- JavaScript array indexing `rows[i]`: defined for `0 ≤ i < rows.length`,
`undefined` (here `none`) otherwise. -/
def rowAt (rows : List Row) (i : ℤ) : Option Row :=
  if 0 ≤ i then rows.get? i.toNat else none

/-! ## Full resolve: `_renderRows` (src/lib/index.js lines 168-222)

The loop walks all rows, accumulating `len`; a row is visible iff
`row.start < end && row.start + row.length > start` where
`row.start` is the accumulated `len`; `first`/`last` record the
outermost visible indices. -/

/-- The `while (++i < rows.length)` loop of `_renderRows`, restricted to the
quantities that determine the window: it threads `len`, the running index and
the `first`/`last` accumulators over the row lengths. -/
def renderRowsGo (start stop : ℤ) : List ℤ → ℤ → ℤ → ℤ → ℤ → ℤ × ℤ × ℤ
  | [], len, _i, first, last => (len, first, last)
  | l :: rest, len, i, first, last =>
    if len < stop ∧ len + l > start then
      renderRowsGo start stop rest (len + l) (i + 1)
        (if first < 0 then i else first) i
    else
      renderRowsGo start stop rest (len + l) (i + 1) first last

/-- The window written by `_renderRows`: `start = scrollTop - padding`,
`end = scrollTop + clientHeight + padding` (both unclamped), `first`/`last`
from the visibility loop. -/
def renderRowsWindow (lengths : List ℤ) (scrollTop clientHeight padding : ℤ) :
    Window :=
  let start := scrollTop - padding
  let stop := scrollTop + clientHeight + padding
  let r := renderRowsGo start stop lengths 0 0 (-1) (-1)
  ⟨start, stop, r.2.1, r.2.2⟩

/-- The `_contentLength` written by `_renderRows` (the final `len`). -/
def renderRowsContentLength (lengths : List ℤ) : ℤ :=
  (renderRowsGo 0 0 lengths 0 0 (-1) (-1)).1

/-- `_renderRows` writes `row.start = len` as it walks, so after a full
resolve the rows carry the running partial sums of the lengths. -/
def rowsFromLengths : List ℤ → ℤ → List Row
  | [], _ => []
  | l :: rest, acc => ⟨l, acc⟩ :: rowsFromLengths rest (acc + l)

/-! ## Incremental tracker: `_refreshWindow` (src/lib/index.js lines 225-350)
with its helpers `_findRow` (353-374) and `_displayRows` (382-412).

Loops are written with explicit fuel; every loop moves its index
monotonically toward the array bounds and JavaScript indexing past the
bounds is an error result (`none`), so fuel `rows.length + 2` is never
exhausted on the inputs used below. -/

/-- The forward hide loop of `_refreshWindow` (lines 246-261): starting at
`win.first` with `len = win.start`, each row adds
`row.length - max(0, win.start - row.start)`; rows with `len <= start` are
hidden; the first row with `len > start` becomes `first` (break).  Returns
`(first, exit index)` with `first = -1` when the loop ran past `win.last`. -/
def hideWalkFwd (rows : List Row) (winStart target winLast : ℤ) :
    ℤ → ℤ → ℕ → Option (ℤ × ℤ)
  | _i, _len, 0 => none
  | i, len, fuel + 1 =>
    match rowAt rows i with
    | none => none
    | some row =>
      let len' := len + row.length - max 0 (winStart - row.start)
      if len' ≤ target then
        if i + 1 ≤ winLast then
          hideWalkFwd rows winStart target winLast (i + 1) len' fuel
        else some (-1, i + 1)
      else some (i, i)

/-- The backward hide loop of `_refreshWindow` (lines 295-309): from
`i = win.last + 1` with `len = win.end`, the loop `while (--i >= win.first)`
subtracts `min(win.end - row.start, row.length)`; on `len < end` it breaks
with `last = i`, otherwise the row is hidden.  Returns `(last, exit index)`
with `last = -1` when the loop ran below `win.first`. -/
def hideWalkBwd (rows : List Row) (winEnd target winFirst : ℤ) :
    ℤ → ℤ → ℕ → Option (ℤ × ℤ)
  | _i, _len, 0 => none
  | i, len, fuel + 1 =>
    let i' := i - 1
    if i' ≥ winFirst then
      match rowAt rows i' with
      | none => none
      | some row =>
        let len' := len - min (winEnd - row.start) row.length
        if len' < target then some (i', i')
        else hideWalkBwd rows winEnd target winFirst i' len' fuel
    else some (-1, i')

/-- Loop body of `_findRow` (lines 360-373): `i` moves by `direction` before
the row is read; forward, reading `rows[rows.length]` yields `undefined`, the
`len` update produces `NaN`, and the `i == rows.length` test then returns `i`
-- modelled by returning `rows.length` directly in that case. -/
def findRowGo (rows : List Row) (endLength direction : ℤ) :
    ℤ → ℤ → ℕ → Option ℤ
  | _i, _len, 0 => none
  | i, len, fuel + 1 =>
    let i' := i + direction
    if direction < 0 then
      match rowAt rows i' with
      | none => none
      | some row =>
        let len' := len - row.length
        if len' < endLength ∨ i' = 0 then some i'
        else findRowGo rows endLength direction i' len' fuel
    else
      if i' = (rows.length : ℤ) then some i'
      else
        match rowAt rows i' with
        | none => none
        | some row =>
          let len' := len + row.length
          if len' > endLength ∨ i' = (rows.length : ℤ) then some i'
          else findRowGo rows endLength direction i' len' fuel

/-- `_findRow(startIndex, endLength, direction)` (lines 353-374). -/
def findRow (rows : List Row) (startIndex endLength direction : ℤ) :
    Option ℤ :=
  if startIndex < 0 then some 0
  else if startIndex ≥ (rows.length : ℤ) then some ((rows.length : ℤ) - 1)
  else
    match rowAt rows startIndex with
    | none => none
    | some row =>
      findRowGo rows endLength direction startIndex row.start (rows.length + 2)

/-- Loop of `_displayRows` (lines 393-408): shows rows from `startIndex`,
accumulating `len += row.length * direction`, stopping at `endLength` or at
`endIndex`; returns the last index visited. -/
def displayRowsGo (rows : List Row) (endLength direction endIndex : ℤ) :
    ℤ → ℤ → ℕ → Option ℤ
  | _i, _len, 0 => none
  | i, len, fuel + 1 =>
    match rowAt rows i with
    | none => none
    | some row =>
      let len' := len + row.length * direction
      if direction > 0 then
        if len' ≥ endLength ∨ i = endIndex then some i
        else displayRowsGo rows endLength direction endIndex (i + 1) len' fuel
      else
        if len' ≤ endLength ∨ i = endIndex then some i
        else displayRowsGo rows endLength direction endIndex (i - 1) len' fuel

/-- `_displayRows(startIndex, endLength, direction)` (lines 382-412):
`len` starts at `row.start`, plus `row.length` when walking backward;
`endIndex` is `rows.length - 1` forward and `0` backward. -/
def displayRows (rows : List Row) (startIndex endLength direction : ℤ) :
    Option ℤ :=
  match rowAt rows startIndex with
  | none => none
  | some row =>
    let len0 := if direction > 0 then row.start else row.start + row.length
    let endIndex : ℤ := if direction > 0 then (rows.length : ℤ) - 1 else 0
    displayRowsGo rows endLength direction endIndex startIndex len0
      (rows.length + 2)

/-- Shared tail of both branches of `_refreshWindow`: run `_displayRows` from
the boundary row and assemble the new window (lines 281, 328, 348).  The
show/hide side effects do not influence the window fields. -/
def refreshFinishFwd (rows : List Row) (start stop first : ℤ) :
    Option Window :=
  match displayRows rows first stop 1 with
  | none => none
  | some last => some ⟨start, stop, first, last⟩

/-- Backward-branch tail: `first = _displayRows(last, start, -1)`. -/
def refreshFinishBwd (rows : List Row) (start stop last : ℤ) :
    Option Window :=
  match displayRows rows last start (-1) with
  | none => none
  | some first => some ⟨start, stop, first, last⟩

/-- `_refreshWindow` (src/lib/index.js lines 225-350), returning the value of
`this._window` after the call (`some win` on the early returns that keep the
previous window, `none` where the JavaScript would throw or read `undefined`:
the `Unable to find ... row in window` throws at lines 268 and 315, and the
crash on an empty previous window whose walk index is never initialised). -/
def refreshWindow (rows : List Row) (contentLength : ℤ) (win : Window)
    (scrollTop clientHeight padding : ℤ) : Option Window :=
  let start := max 0 (scrollTop - padding)
  if start = win.start ∧ 0 ≤ win.first then some win
  else
    let stop := min contentLength (scrollTop + clientHeight + padding)
    if start > win.start then
      match
        (if 0 ≤ win.first then
          hideWalkFwd rows win.start start win.last win.first win.start
            (rows.length + 2)
        else none) with
      | none => none
      | some (first0, exitI) =>
        if first0 < 0 then
          match findRow rows exitI start 1 with
          | none => none
          | some f =>
            match rowAt rows f with
            | none => none
            | some row =>
              if row.start + row.length < start then none
              else refreshFinishFwd rows start stop f
        else
          if first0 = win.first then
            match rowAt rows win.last with
            | some row =>
              if row.start + row.length > stop then some win
              else refreshFinishFwd rows start stop first0
            | none => refreshFinishFwd rows start stop first0
          else refreshFinishFwd rows start stop first0
    else
      match
        (if 0 ≤ win.first then
          hideWalkBwd rows win.stop stop win.first (win.last + 1) win.stop
            (rows.length + 2)
        else none) with
      | none => none
      | some (last0, exitI) =>
        if last0 < 0 then
          match findRow rows exitI stop (-1) with
          | none => none
          | some l =>
            match rowAt rows l with
            | none => none
            | some row =>
              if row.start > stop then none
              else refreshFinishBwd rows start stop l
        else
          if last0 = win.last then
            match rowAt rows win.first with
            | some row =>
              if row.start < stop then some win
              else refreshFinishBwd rows start stop last0
            | none => refreshFinishBwd rows start stop last0
          else refreshFinishBwd rows start stop last0

/-! ## C1: incremental tracking versus full resolve -/

/-- Five rows of length 10, as left by a full resolve: starts 0,10,20,30,40. -/
def c1Lengths : List ℤ := [10, 10, 10, 10, 10]

/-- The rows after `_renderRows` on `c1Lengths` (starts are the partial sums). -/
def c1Rows : List Row := rowsFromLengths c1Lengths 0

/-- C1: the claim that `_refreshWindow` from a valid previous window always
produces the same window `{start, end, first, last}` as a full `_renderRows`
resolve is refuted by the code: with five rows of length 10, client height 10,
padding 0, previous window produced by the full resolve at scroll coordinate 5
(`{5, 15, 0, 1}`), a fresh tick at coordinate 20 makes `_refreshWindow`
return `{20, 30, 3, 3}` while the full resolve gives `{20, 30, 2, 2}`: the
hide loop consumes the whole previous window, and `_findRow` advances its
index before accumulating, so it can never return its start index 2 and
skips the row occupying pixels 20-30 even though it overlaps the viewport
[20, 30).  The row stays hidden on screen, contradicting the intended
equivalence (and defeating the `Unable to find first row` sanity check). -/
theorem c1_refresh_vs_full_divergence :
    renderRowsWindow c1Lengths 5 10 0 = ⟨5, 15, 0, 1⟩ ∧
    refreshWindow c1Rows 50 (renderRowsWindow c1Lengths 5 10 0) 20 10 0 =
      some ⟨20, 30, 3, 3⟩ ∧
    renderRowsWindow c1Lengths 20 10 0 = ⟨20, 30, 2, 2⟩ ∧
    refreshWindow c1Rows 50 (renderRowsWindow c1Lengths 5 10 0) 20 10 0 ≠
      some (renderRowsWindow c1Lengths 20 10 0) := by
  refine ⟨by decide, by decide, by decide, by decide⟩

/-! ## Position index (src/unnamed/part_001 lines 297-317 and
src/unnamed/part_000 lines 235-247)

The height and position tables are modelled as functions `ℕ → ℤ` (the
functional view of the JavaScript arrays `_itemHeights`, `_itemPositions`);
a cell write is a pointwise update. -/

/-- JavaScript array cell write `a[i] = v` on the functional table view. -/
def setCell (a : ℕ → ℤ) (i : ℕ) (v : ℤ) : ℕ → ℤ :=
  fun k => if k = i then v else a k

/-- The `for (let i = from; i < itemCount; i++)` loop of part_001
`_computePositions` (lines 306-316): forward mode writes
`pos[i] = heights[i-1] + pos[i-1]`; reverse mode writes
`pos[0] = scrollHeight - heights[0]` at index 0 and
`pos[i] = pos[i-1] - heights[i]` otherwise.  The fuel argument counts the
remaining iterations (`itemCount - i` at every call site). -/
def computePositionsGo (reverse : Bool) (heights : ℕ → ℤ) (sh : ℤ)
    (itemCount : ℕ) : (ℕ → ℤ) → ℕ → ℕ → ℕ → ℤ
  | pos, _i, 0 => pos
  | pos, i, fuel + 1 =>
    if i < itemCount then
      let pos' :=
        if reverse then
          if i = 0 then setCell pos 0 (sh - heights 0)
          else setCell pos i (pos (i - 1) - heights i)
        else setCell pos i (heights (i - 1) + pos (i - 1))
      computePositionsGo reverse heights sh itemCount pos' (i + 1) fuel
    else pos

/-- part_001 `_computePositions(from = 1)` (lines 297-317): in forward mode a
start below 1 is bumped to 1 (`if (from < 1 && !reverse) from = 1`), then the
loop runs to `itemCount`. -/
def computePositions (reverse : Bool) (heights : ℕ → ℤ) (sh : ℤ)
    (itemCount : ℕ) (pos : ℕ → ℤ) (start : ℕ) : ℕ → ℤ :=
  let start' := if start < 1 ∧ reverse = false then 1 else start
  computePositionsGo reverse heights sh itemCount pos start' (itemCount - start')

/-- part_000 `_computePositions(from = 0)` (lines 235-247): a start of 0
first writes `itemPositions[0] = 0` and bumps to 1; the forward loop body
`itemPositions[i] = itemHeights[i-1] + itemPositions[i-1]` is the same as in
part_001 (that file has no reverse mode), so the loop model is reused with
`reverse = false`. -/
def computePositions000 (heights : ℕ → ℤ) (itemCount : ℕ) (pos : ℕ → ℤ)
    (start : ℕ) : ℕ → ℤ :=
  if start = 0 then
    computePositionsGo false heights 0 itemCount (setCell pos 0 0) 1
      (itemCount - 1)
  else computePositionsGo false heights 0 itemCount pos start
    (itemCount - start)

/-- One unfolding step of the forward loop. -/
lemma computePositionsGo_succ_false (heights : ℕ → ℤ) (sh : ℤ) (n : ℕ)
    (pos : ℕ → ℤ) (i fuel : ℕ) :
    computePositionsGo false heights sh n pos i (fuel + 1) =
      if i < n then
        computePositionsGo false heights sh n
          (setCell pos i (heights (i - 1) + pos (i - 1))) (i + 1) fuel
      else pos := rfl

/-- One unfolding step of the reverse loop at a nonzero index. -/
lemma computePositionsGo_succ_true (heights : ℕ → ℤ) (sh : ℤ) (n : ℕ)
    (pos : ℕ → ℤ) (i fuel : ℕ) (hi : i ≠ 0) :
    computePositionsGo true heights sh n pos i (fuel + 1) =
      if i < n then
        computePositionsGo true heights sh n
          (setCell pos i (pos (i - 1) - heights i)) (i + 1) fuel
      else pos := by
  simp [computePositionsGo, hi]

/-- One unfolding step of the reverse loop at index 0. -/
lemma computePositionsGo_succ_true_zero (heights : ℕ → ℤ) (sh : ℤ) (n : ℕ)
    (pos : ℕ → ℤ) (fuel : ℕ) :
    computePositionsGo true heights sh n pos 0 (fuel + 1) =
      if 0 < n then
        computePositionsGo true heights sh n
          (setCell pos 0 (sh - heights 0)) 1 fuel
      else pos := rfl

/-- Cells outside the loop's write range `[i, itemCount)` are untouched. -/
lemma computePositionsGo_outside (reverse : Bool) (heights : ℕ → ℤ) (sh : ℤ)
    (n : ℕ) :
    ∀ (fuel i : ℕ) (pos : ℕ → ℤ) (k : ℕ), k < i ∨ n ≤ k →
      computePositionsGo reverse heights sh n pos i fuel k = pos k := by
  intro fuel
  induction fuel with
  | zero => intro i pos k _; rfl
  | succ fuel ih =>
    intro i pos k hk
    cases reverse with
    | false =>
      rw [computePositionsGo_succ_false]
      by_cases hin : i < n
      · rw [if_pos hin, ih (i + 1) _ k (by omega)]
        have hki : k ≠ i := by omega
        simp [setCell, hki]
      · rw [if_neg hin]
    | true =>
      by_cases hi0 : i = 0
      · subst hi0
        rw [computePositionsGo_succ_true_zero]
        by_cases hin : 0 < n
        · rw [if_pos hin, ih 1 _ k (by omega)]
          have hki : k ≠ 0 := by omega
          simp [setCell, hki]
        · rw [if_neg hin]
      · rw [computePositionsGo_succ_true _ _ _ _ _ _ hi0]
        by_cases hin : i < n
        · rw [if_pos hin, ih (i + 1) _ k (by omega)]
          have hki : k ≠ i := by omega
          simp [setCell, hki]
        · rw [if_neg hin]

/-- Forward loop correctness: every cell in the recomputed range satisfies
the prefix-sum recurrence against the cell below it. -/
lemma computePositionsGo_fwd_rel (heights : ℕ → ℤ) (sh : ℤ) (n : ℕ) :
    ∀ (fuel i : ℕ) (pos : ℕ → ℤ), n ≤ i + fuel → 1 ≤ i →
      ∀ k, i ≤ k → k < n →
        computePositionsGo false heights sh n pos i fuel k =
          heights (k - 1) + computePositionsGo false heights sh n pos i fuel (k - 1) := by
  intro fuel
  induction fuel with
  | zero => intro i pos hn _ k hik hkn; omega
  | succ fuel ih =>
    intro i pos hn h1 k hik hkn
    have hin : i < n := lt_of_le_of_lt hik hkn
    rw [computePositionsGo_succ_false, if_pos hin]
    rcases eq_or_lt_of_le hik with heq | hlt
    · subst heq
      rw [computePositionsGo_outside false heights sh n fuel (i + 1) _ i
            (Or.inl (by omega)),
          computePositionsGo_outside false heights sh n fuel (i + 1) _ (i - 1)
            (Or.inl (by omega))]
      have h1' : i - 1 ≠ i := by omega
      simp [setCell, h1']
    · exact ih (i + 1) _ (by omega) (by omega) k (by omega) hkn

/-- Reverse loop correctness: every cell in the recomputed range satisfies
the suffix recurrence pos[k] = pos[k-1] - heights[k]. -/
lemma computePositionsGo_rev_rel (heights : ℕ → ℤ) (sh : ℤ) (n : ℕ) :
    ∀ (fuel i : ℕ) (pos : ℕ → ℤ), n ≤ i + fuel → 1 ≤ i →
      ∀ k, i ≤ k → k < n →
        computePositionsGo true heights sh n pos i fuel k =
          computePositionsGo true heights sh n pos i fuel (k - 1) - heights k := by
  intro fuel
  induction fuel with
  | zero => intro i pos hn _ k hik hkn; omega
  | succ fuel ih =>
    intro i pos hn h1 k hik hkn
    have hin : i < n := lt_of_le_of_lt hik hkn
    have hi0 : i ≠ 0 := by omega
    rw [computePositionsGo_succ_true _ _ _ _ _ _ hi0, if_pos hin]
    rcases eq_or_lt_of_le hik with heq | hlt
    · subst heq
      rw [computePositionsGo_outside true heights sh n fuel (i + 1) _ i
            (Or.inl (by omega)),
          computePositionsGo_outside true heights sh n fuel (i + 1) _ (i - 1)
            (Or.inl (by omega))]
      have h1' : i - 1 ≠ i := by omega
      simp [setCell, h1']
    · exact ih (i + 1) _ (by omega) (by omega) k (by omega) hkn

/-- Forward-mode prefix-sum relation of the spec:
`position[k+1] = position[k] + length[k]` for all valid `k`. -/
def fwdRel (n : ℕ) (heights pos : ℕ → ℤ) : Prop :=
  ∀ k, k + 1 < n → pos (k + 1) = pos k + heights k

/-- The reverse-mode relation the code actually establishes:
`position[k] = position[k+1] + length[k+1]` (positions decrease with the
index, each step by the length of the row above). -/
def revRelofCode (n : ℕ) (heights pos : ℕ → ℤ) : Prop :=
  ∀ k, k + 1 < n → pos k = pos (k + 1) + heights (k + 1)


/-- Unfolding of part_001 `_computePositions` in forward mode: the start is
bumped to at least 1. -/
lemma computePositions_false_eq (heights : ℕ → ℤ) (sh : ℤ) (n : ℕ)
    (pos : ℕ → ℤ) (start : ℕ) :
    computePositions false heights sh n pos start =
      computePositionsGo false heights sh n pos (max 1 start)
        (n - max 1 start) := by
  unfold computePositions
  by_cases hlt : start < 1
  · have h0 : start = 0 := by omega
    subst h0
    norm_num
  · have hc : ¬ (start < 1 ∧ (false : Bool) = false) := fun hc => hlt hc.1
    rw [if_neg hc]
    have hm : max 1 start = start := by omega
    rw [hm]

/-- Unfolding of part_001 `_computePositions` in reverse mode: the start is
used as given. -/
lemma computePositions_true_eq (heights : ℕ → ℤ) (sh : ℤ) (n : ℕ)
    (pos : ℕ → ℤ) (start : ℕ) :
    computePositions true heights sh n pos start =
      computePositionsGo true heights sh n pos start (n - start) := by
  unfold computePositions
  norm_num

/-- The rows written by a `_renderRows` full resolve satisfy the forward
prefix-sum relation: each row starts where the previous one ends. -/
lemma rowsFromLengths_start (L : List ℤ) (acc : ℤ) :
    ∀ i, i + 1 < L.length →
      ((rowsFromLengths L acc).getD (i + 1) ⟨0, 0⟩).start =
        ((rowsFromLengths L acc).getD i ⟨0, 0⟩).start +
          ((rowsFromLengths L acc).getD i ⟨0, 0⟩).length := by
  induction L generalizing acc with
  | nil => intro i h; simp at h
  | cons l rest ih =>
    intro i h
    cases i with
    | zero =>
      cases rest with
      | nil => simp at h
      | cons l2 r2 => simp [rowsFromLengths]
    | succ j =>
      have hj : j + 1 < rest.length := by
        simpa using Nat.lt_of_succ_lt_succ h
      have := ih (acc + l) j hj
      simpa [rowsFromLengths] using this

/-- Fixed heights used in the C2 counterexample: 10 then 20. -/
def c2Heights : ℕ → ℤ := fun k => if k = 0 then 10 else 20

/-- C2, counterexample to the claimed reverse-mode relation: with two rows of
heights 10 and 20 and total extent 30, the reverse full recompute
(part_001 `_computePositions(0)`) yields positions 20 and 0, so
`position[0] == position[1] - length[0]` reads `20 == 0 - 10`, which is
false: reverse positions satisfy `position[i] == position[i+1] + length[i+1]`
instead. -/
theorem c2_counterexample :
    ¬ (computePositions true c2Heights 30 2 (fun _ => 0) 0 0 =
        computePositions true c2Heights 30 2 (fun _ => 0) 0 1 -
          c2Heights 0) := by
  decide

/-- C2 (amended): after any position recomputation from index `start`
(`start = 0` is the full resolve/refresh path; a positive `start` is the
single-row length-change path, whose below-`start` cells must already be
consistent), the forward table satisfies
`position[k+1] = position[k] + length[k]` with `position[0]` untouched
(hence 0 when initialised to 0), and the reverse table satisfies
`position[k] = position[k+1] + length[k+1]` -- not the claimed
`position[k] = position[k+1] - length[k]`.  The rows written by a
`_renderRows` full resolve satisfy the same forward relation. -/
theorem c2_prefix_suffix_relation (heights pos : ℕ → ℤ) (sh : ℤ)
    (n start : ℕ) (L : List ℤ) (acc : ℤ)
    (hfwd : ∀ k, k + 1 < start → k + 1 < n →
      pos (k + 1) = pos k + heights k)
    (hrev : ∀ k, k + 1 < start → k + 1 < n →
      pos k = pos (k + 1) + heights (k + 1)) :
    fwdRel n heights (computePositions false heights sh n pos start) ∧
    computePositions false heights sh n pos start 0 = pos 0 ∧
    revRelofCode n heights (computePositions true heights sh n pos start) ∧
    (∀ i, i + 1 < L.length →
      ((rowsFromLengths L acc).getD (i + 1) ⟨0, 0⟩).start =
        ((rowsFromLengths L acc).getD i ⟨0, 0⟩).start +
          ((rowsFromLengths L acc).getD i ⟨0, 0⟩).length) := by
  refine ⟨?_, ?_, ?_, rowsFromLengths_start L acc⟩
  · intro k hk
    rw [computePositions_false_eq]
    by_cases hks : max 1 start ≤ k + 1
    · have hrel := computePositionsGo_fwd_rel heights sh n (n - max 1 start)
        (max 1 start) pos (by omega) (by omega) (k + 1) hks (by omega)
      simp only [Nat.add_sub_cancel] at hrel
      linarith
    · rw [computePositionsGo_outside false heights sh n _ _ _ (k + 1)
            (Or.inl (by omega)),
          computePositionsGo_outside false heights sh n _ _ _ k
            (Or.inl (by omega))]
      exact hfwd k (by omega) hk
  · rw [computePositions_false_eq]
    exact computePositionsGo_outside false heights sh n _ _ _ 0
      (Or.inl (by omega))
  · rw [computePositions_true_eq]
    rcases Nat.eq_zero_or_pos start with h0 | hpos
    · subst h0
      intro k hk
      have hn : ∃ m, n = m + 1 := ⟨n - 1, by omega⟩
      obtain ⟨m, rfl⟩ := hn
      have hfuel : ∃ f, m + 1 - 0 = f + 1 := ⟨m, by omega⟩
      obtain ⟨f, hf⟩ := hfuel
      rw [hf, computePositionsGo_succ_true_zero, if_pos (by omega)]
      have hrel := computePositionsGo_rev_rel heights sh (m + 1) f 1
        (setCell pos 0 (sh - heights 0)) (by omega) (by omega) (k + 1)
        (by omega) (by omega)
      simp only [Nat.add_sub_cancel] at hrel
      linarith
    · intro k hk
      by_cases hks : start ≤ k + 1
      · have hrel := computePositionsGo_rev_rel heights sh n (n - start)
          start pos (by omega) hpos (k + 1) hks (by omega)
        simp only [Nat.add_sub_cancel] at hrel
        linarith
      · rw [computePositionsGo_outside true heights sh n _ _ _ (k + 1)
              (Or.inl (by omega)),
            computePositionsGo_outside true heights sh n _ _ _ k
              (Or.inl (by omega))]
        exact hrev k (by omega) hk

/-- Witness for C2 (amended) at two uniform rows of height 10, total 30. -/
theorem c2_witness :
    computePositions false (fun _ => (10 : ℤ)) 30 2 (fun _ => 0) 0 1 =
      computePositions false (fun _ => (10 : ℤ)) 30 2 (fun _ => 0) 0 0 + 10 ∧
    computePositions true (fun _ => (10 : ℤ)) 30 2 (fun _ => 0) 0 0 =
      computePositions true (fun _ => (10 : ℤ)) 30 2 (fun _ => 0) 0 1 + 10 := by
  have h := c2_prefix_suffix_relation (fun _ => (10 : ℤ)) (fun _ => 0) 30 2 0
    [] 0 (fun k hk _ => by omega) (fun k hk _ => by omega)
  exact ⟨h.1 0 (by omega), h.2.2.1 0 (by omega)⟩

/-! ## C8: single-row length change (src/unnamed/part_000 `_getRow`,
lines 148-181) -/

/-- Position-index state of part_000: the `_itemHeights` and `_itemPositions`
tables and the running `_scrollHeight`. -/
structure Index000 where
  heights : ℕ → ℤ
  positions : ℕ → ℤ
  scrollHeight : ℤ

/-- The measured-height update path of part_000 `_getRow` (lines 156-162):
when the generator reports a height different from the predicted one, the
height cell is overwritten, `_scrollHeight` is adjusted by the difference,
and `_computePositions(i + 1)` recomputes the downstream positions; when the
height is unchanged nothing is mutated. -/
def getRowUpdate000 (st : Index000) (itemCount i : ℕ) (height : ℤ) :
    Index000 :=
  if height = st.heights i then st
  else
    let heights' := setCell st.heights i height
    { heights := heights'
      positions := computePositions000 heights' itemCount st.positions (i + 1)
      scrollHeight := st.scrollHeight + (height - st.heights i) }

/-- A cell update inside the summation range shifts the sum by the
difference at that cell. -/
lemma sum_setCell (f : ℕ → ℤ) (i : ℕ) (v : ℤ) (n : ℕ) (hi : i < n) :
    ∑ k in Finset.range n, setCell f i v k =
      (∑ k in Finset.range n, f k) + (v - f i) := by
  have hsplit : ∀ k, setCell f i v k = f k + (if k = i then v - f i else 0) := by
    intro k
    by_cases h : k = i <;> simp [setCell, h]
  simp only [hsplit, Finset.sum_add_distrib]
  rw [Finset.sum_ite_eq' (Finset.range n) i (fun _ => v - f i)]
  simp [Finset.mem_range.mpr hi]

/-- C8: the part_000 length-update path is a no-op when the reported height
is unchanged; when row `i` changes, recomputation starts at the minimal
dirty index `i + 1`: all positions at indices at most `i` are untouched,
every downstream position is rebuilt to satisfy the prefix-sum recurrence
against the new heights, and the total extent is adjusted by exactly the
height difference (so it remains the sum of all heights). -/
theorem c8_setlength_minimal_recompute (st : Index000) (n i : ℕ) (h : ℤ)
    (hin : i < n) :
    (h = st.heights i → getRowUpdate000 st n i h = st) ∧
    (h ≠ st.heights i →
      (∀ j, j ≤ i → (getRowUpdate000 st n i h).positions j = st.positions j) ∧
      (∀ j, i + 1 ≤ j → j < n →
        (getRowUpdate000 st n i h).positions j =
          (getRowUpdate000 st n i h).heights (j - 1) +
            (getRowUpdate000 st n i h).positions (j - 1)) ∧
      (getRowUpdate000 st n i h).scrollHeight =
        st.scrollHeight + (h - st.heights i) ∧
      (st.scrollHeight = ∑ k in Finset.range n, st.heights k →
        (getRowUpdate000 st n i h).scrollHeight =
          ∑ k in Finset.range n, (getRowUpdate000 st n i h).heights k)) := by
  constructor
  · intro he
    unfold getRowUpdate000
    rw [if_pos he]
  · intro hne
    have hres : getRowUpdate000 st n i h =
        { heights := setCell st.heights i h
          positions := computePositions000 (setCell st.heights i h) n
            st.positions (i + 1)
          scrollHeight := st.scrollHeight + (h - st.heights i) } := by
      unfold getRowUpdate000
      rw [if_neg hne]
    have hpos : computePositions000 (setCell st.heights i h) n
        st.positions (i + 1) =
          computePositionsGo false (setCell st.heights i h) 0 n st.positions
            (i + 1) (n - (i + 1)) := by
      unfold computePositions000
      rw [if_neg (by omega : ¬ i + 1 = 0)]
    refine ⟨?_, ?_, ?_, ?_⟩
    · intro j hj
      rw [hres]
      simp only
      rw [hpos]
      exact computePositionsGo_outside false _ 0 n _ _ _ j (Or.inl (by omega))
    · intro j hj1 hj2
      rw [hres]
      simp only
      rw [hpos]
      exact computePositionsGo_fwd_rel (setCell st.heights i h) 0 n
        (n - (i + 1)) (i + 1) st.positions (by omega) (by omega) j hj1 hj2
    · rw [hres]
    · intro hsum
      rw [hres]
      simp only
      rw [sum_setCell st.heights i h n hin, ← hsum]

/-- Witness for C8 at three rows of height 10, row 1 remeasured to 25. -/
theorem c8_witness :
    (getRowUpdate000 ⟨fun _ => 10, fun k => 10 * (k : ℤ), 30⟩ 3 1 25).positions 1 =
      10 * (1 : ℤ) ∧
    (getRowUpdate000 ⟨fun _ => 10, fun k => 10 * (k : ℤ), 30⟩ 3 1 25).scrollHeight =
      30 + (25 - 10) := by
  have h := c8_setlength_minimal_recompute
    ⟨fun _ => 10, fun k => 10 * (k : ℤ), 30⟩ 3 1 25 (by omega)
  have h2 := h.2 (by decide)
  exact ⟨h2.1 1 (by omega), h2.2.2.1⟩


/-! ## C5: row removal (src/lib/index.js `_removeRows`, lines 414-451) -/

/-- Result of `_removeRows`: the mutated row store, `_contentLength` and
`_window`, plus a flag recording that the overlap branch reached the call
`this._renderVisible()` -- a method that does not exist on the class, so the
JavaScript throws a `TypeError` there (after the mutations already applied). -/
structure RemoveResult where
  rows : List Row
  contentLength : ℤ
  window : Option Window
  renderVisibleCrash : Bool
  deriving DecidableEq, Repr

/-- `_removeRows(startIndex, endIndex)` (lines 414-451).  The do-loop sums
the removed lengths (detaching each node); the splice drops the range; the
adjustment loop resumes its counter at `endIndex + 1` and pre-increments
against the post-splice `maxIndex`, so it only shifts rows at post-splice
indices `endIndex + 2 .. maxIndex`; the window branch compares the pixel
fields `win.start`/`win.end` against the row indices and finally invokes the
nonexistent `_renderVisible`. -/
def removeRows (rows : List Row) (contentLength : ℤ) (window : Option Window)
    (startIndex endIndex : ℕ) : RemoveResult :=
  let len := (((rows.drop startIndex).take (endIndex + 1 - startIndex)).map
    Row.length).sum
  let contentLength' := contentLength - len
  let rows1 := rows.take startIndex ++ rows.drop (endIndex + 1)
  let maxIndex : ℤ := (rows1.length : ℤ) - 1
  let rows2 :=
    if (endIndex : ℤ) < maxIndex then
      rows1.mapIdx (fun j r =>
        if (endIndex : ℤ) + 2 ≤ (j : ℤ) then { r with start := r.start - len }
        else r)
    else rows1
  match window with
  | none => ⟨rows2, contentLength', none, false⟩
  | some win =>
    if win.start ≤ (endIndex : ℤ) ∧ win.stop ≥ (startIndex : ℤ) then
      let s' := if win.start ≥ (startIndex : ℤ) then (endIndex : ℤ) + 1
        else win.start
      let e' := if win.stop ≤ (endIndex : ℤ) then (startIndex : ℤ) - 1
        else win.stop
      let win' : Option Window :=
        if e' - s' < 0 then none else some ⟨s', e', win.first, win.last⟩
      ⟨rows2, contentLength', win', true⟩
    else ⟨rows2, contentLength', some win, false⟩

/-- Three rows of length 10 as laid out by a full resolve. -/
def c5Rows : List Row := rowsFromLengths [10, 10, 10] 0

/-- C5: evaluating `_removeRows(0, 0)` on three rows of length 10 (starts
0, 10, 20).  The adjustment loop starts past the survivors, so the remaining
rows keep starts 10 and 20 instead of the 0 and 10 the removal contract
requires; and with a window overlapping the removed range the code reaches
`this._renderVisible()`, which is not defined anywhere in the class, so no
fresh resolve can ever be triggered -- the call throws. -/
theorem c5_remove_rows_bug :
    (removeRows c5Rows 30 none 0 0).rows.map Row.start = [10, 20] ∧
    (removeRows c5Rows 30 none 0 0).rows.map Row.start ≠ [0, 10] ∧
    (removeRows c5Rows 30 none 0 0).contentLength = 20 ∧
    (removeRows c5Rows 30 (some ⟨0, 15, 0, 1⟩) 0 0).renderVisibleCrash =
      true := by
  refine ⟨by decide, by decide, by decide, by decide⟩

/-! ## C3: total extent conservation

State machine over the extent-relevant effects of the cited operations:
full resolve (`_renderRows` / `_computeScrollHeight`, both of which set the
total to the sum of all lengths), a generator-reported length change
(part_000 `_getRow`, lines 156-162), row removal (`_removeRows`,
lines 414-451) and `append` (src/lib/index.js lines 68-104, which adds the
new length to `_contentLength` only when `this._window` is set and otherwise
merely schedules a future resolve).  The state carries the actual
`this._window` value, updated by `_renderRows` (which always stores one) and
by `_removeRows` (whose overlap branch can null it), because `append`
branches on it. -/

/-- The operations of the C3 claim.  A full resolve reads the scroll state
of the root element, so the operation carries it. -/
inductive ListOp where
  | fullResolve (scrollTop clientHeight padding : ℤ)
  | setLength (i : ℕ) (newLen : ℤ)
  | removeRange (lo hi : ℕ)
  | append (len : ℤ)
  deriving DecidableEq, Repr

/-- Extent-relevant state: the row lengths, the tracked total extent
(`_contentLength` / `_scrollHeight`) and the current `_window`. -/
structure ListState where
  lengths : List ℤ
  extent : ℤ
  window : Option Window
  deriving DecidableEq, Repr

/-- The `_window` update of `_removeRows` (src/lib/index.js lines 436-450),
as also modelled inside `removeRows`: when the (index-against-pixel)
overlap test fires, `win.start`/`win.end` receive row indices and the
window is nulled when they cross -- after which the code throws in
`_renderVisible`, with these mutations already applied, so later operations
observe them. -/
def removeRowsWindowUpdate (window : Option Window) (startIndex endIndex : ℕ) :
    Option Window :=
  match window with
  | none => none
  | some win =>
    if win.start ≤ (endIndex : ℤ) ∧ win.stop ≥ (startIndex : ℤ) then
      let s' := if win.start ≥ (startIndex : ℤ) then (endIndex : ℤ) + 1
        else win.start
      let e' := if win.stop ≤ (endIndex : ℤ) then (startIndex : ℤ) - 1
        else win.stop
      if e' - s' < 0 then none else some ⟨s', e', win.first, win.last⟩
    else some win

/-- One operation, faithful to the cited code paths. -/
def applyOp (st : ListState) : ListOp → ListState
  | .fullResolve scrollTop clientHeight padding =>
    ⟨st.lengths,
      (renderRowsGo (scrollTop - padding) (scrollTop + clientHeight + padding)
        st.lengths 0 0 (-1) (-1)).1,
      some (renderRowsWindow st.lengths scrollTop clientHeight padding)⟩
  | .setLength i h =>
    if h = st.lengths.getD i 0 then st
    else ⟨st.lengths.set i h, st.extent + (h - st.lengths.getD i 0),
      st.window⟩
  | .removeRange lo hi =>
    let len := ((st.lengths.drop lo).take (hi + 1 - lo)).sum
    ⟨st.lengths.take lo ++ st.lengths.drop (hi + 1), st.extent - len,
      removeRowsWindowUpdate st.window lo hi⟩
  | .append l =>
    if st.window.isSome then ⟨st.lengths ++ [l], st.extent + l, st.window⟩
    else ⟨st.lengths ++ [l], st.extent, st.window⟩

/-- In-range side conditions under which the loops of the source are
well-defined, plus the window requirement of `append`'s fast path. -/
def opOk (st : ListState) : ListOp → Bool
  | .fullResolve _ _ _ => true
  | .setLength i _ => decide (i < st.lengths.length)
  | .removeRange lo hi => decide (lo ≤ hi ∧ hi < st.lengths.length)
  | .append _ => st.window.isSome

/-- Fold of a list of operations. -/
def applyOps : ListState → List ListOp → ListState
  | st, [] => st
  | st, op :: ops => applyOps (applyOp st op) ops

/-- All operations of the list are in range (each judged in the state where
it runs). -/
def opsOk : ListState → List ListOp → Bool
  | _, [] => true
  | st, op :: ops => opOk st op && opsOk (applyOp st op) ops

/-- The `_renderRows` loop accumulates exactly the sum of the lengths. -/
lemma renderRowsGo_len (start stop : ℤ) :
    ∀ (L : List ℤ) (len i first last : ℤ),
      (renderRowsGo start stop L len i first last).1 = len + L.sum := by
  intro L
  induction L with
  | nil => intro len i first last; simp [renderRowsGo]
  | cons l rest ih =>
    intro len i first last
    by_cases h : len < stop ∧ len + l > start
    · rw [renderRowsGo, if_pos h, ih]
      simp [List.sum_cons]
      ring
    · rw [renderRowsGo, if_neg h, ih]
      simp [List.sum_cons]
      ring

/-- Overwriting one in-range cell shifts the sum by the difference. -/
lemma sum_set_list (L : List ℤ) (i : ℕ) (v : ℤ) :
    ∀ _h : i < L.length, (L.set i v).sum = L.sum + (v - L.getD i 0) := by
  induction L generalizing i with
  | nil => intro h; simp at h
  | cons a rest ih =>
    intro h
    cases i with
    | zero => simp [List.set]; ring
    | succ j =>
      have hj : j < rest.length := by simpa using Nat.lt_of_succ_lt_succ h
      simp [List.set, List.sum_cons, ih j hj]
      ring

/-- Splicing out an in-range block removes exactly its sum. -/
lemma sum_splice (L : List ℤ) (lo hi : ℕ) (hlo : lo ≤ hi)
    (_hhi : hi < L.length) :
    (L.take lo ++ L.drop (hi + 1)).sum =
      L.sum - ((L.drop lo).take (hi + 1 - lo)).sum := by
  have h1 : (L.take lo).sum + (L.drop lo).sum = L.sum :=
    List.sum_take_add_sum_drop L lo
  have h2 : ((L.drop lo).take (hi + 1 - lo)).sum +
      ((L.drop lo).drop (hi + 1 - lo)).sum = (L.drop lo).sum :=
    List.sum_take_add_sum_drop _ _
  have h3 : (L.drop lo).drop (hi + 1 - lo) = L.drop (hi + 1) := by
    rw [List.drop_drop]
    congr 1
    omega
  rw [List.sum_append]
  rw [h3] at h2
  linarith

/-- C3 (amended): starting from any state whose tracked extent equals the
sum of the lengths, the extent stays equal to the sum across every sequence
of full resolves, generator length changes, in-range removals and appends
performed while a window exists. -/
theorem c3_total_extent (st : ListState) (ops : List ListOp)
    (hinv : st.extent = st.lengths.sum) (hok : opsOk st ops = true) :
    (applyOps st ops).extent = (applyOps st ops).lengths.sum := by
  induction ops generalizing st with
  | nil => exact hinv
  | cons op ops ih =>
    have hok' : opOk st op = true ∧ opsOk (applyOp st op) ops = true := by
      have := hok
      simp only [opsOk, Bool.and_eq_true] at this
      exact this
    refine ih (applyOp st op) ?_ hok'.2
    cases op with
    | fullResolve scrollTop clientHeight padding =>
      simp only [applyOp]
      rw [renderRowsGo_len]
      ring
    | setLength i h =>
      simp only [applyOp]
      by_cases he : h = st.lengths.getD i 0
      · rw [if_pos he]; exact hinv
      · rw [if_neg he]
        have hi : i < st.lengths.length := by
          have := hok'.1
          simpa [opOk] using this
        simp only
        rw [sum_set_list st.lengths i h hi, hinv]
    | removeRange lo hi =>
      simp only [applyOp]
      have hr : lo ≤ hi ∧ hi < st.lengths.length := by
        have := hok'.1
        simpa [opOk] using this
      rw [sum_splice st.lengths lo hi hr.1 hr.2, hinv]
    | append l =>
      simp only [applyOp]
      have hw : st.window.isSome = true := by
        have := hok'.1
        simpa [opOk] using this
      rw [if_pos hw]
      simp [List.sum_append, hinv]

/-- C3, counterexample to the unrestricted claim: on a fresh instance (no
rows, no window, extent 0) a single `append` of a row of length 10 leaves
`_contentLength` at 0 while the lengths now sum to 10 -- `append` only
updates the extent when a window exists, otherwise it defers to a scheduled
future resolve. -/
theorem c3_counterexample :
    (applyOp ⟨[], 0, none⟩ (ListOp.append 10)).extent ≠
      (applyOp ⟨[], 0, none⟩ (ListOp.append 10)).lengths.sum := by
  decide

/-- Witness for C3 (amended): a mixed sequence of the four operations on a
windowed two-row list, crossing a removal that rewrites the window and a
subsequent full resolve and append. -/
theorem c3_witness :
    (applyOps ⟨[10, 10], 20, some ⟨0, 15, 0, 1⟩⟩
      [ListOp.setLength 0 25, ListOp.append 5, ListOp.removeRange 0 0,
        ListOp.fullResolve 0 10 0, ListOp.append 7]).extent =
      (applyOps ⟨[10, 10], 20, some ⟨0, 15, 0, 1⟩⟩
        [ListOp.setLength 0 25, ListOp.append 5, ListOp.removeRange 0 0,
          ListOp.fullResolve 0 10 0, ListOp.append 7]).lengths.sum :=
  c3_total_extent _ _ (by decide) (by decide)


/-! ## C4: the frame gate (render loop of src/unnamed/part_000 lines 32-56
and src/unnamed/part_001 lines 74-98; the two loops are identical up to the
scroll-position getter). -/

/-- JavaScript truthiness of `_lastRepaint` (`null` before the first render,
otherwise a number; both `null` and `0` are falsy). -/
def jsTruthy : Option ℤ → Bool
  | none => false
  | some v => decide (v ≠ 0)

/-- One tick of the render loop: returns whether `_renderChunk` ran and the
resulting `_lastRepaint`.  Source:
`if (scrollTop === lastRepaint || !this._scrollHeight) return;
 const diff = lastRepaint ? scrollTop - lastRepaint : 0;
 if (!lastRepaint || diff < 0 || diff > this._averageHeight) {
   this._renderChunk(); this._lastRepaint = scrollTop; }`. -/
def renderTick (scrollTop : ℤ) (lastRepaint : Option ℤ)
    (scrollHeight averageHeight : ℤ) : Bool × Option ℤ :=
  if lastRepaint = some scrollTop ∨ scrollHeight = 0 then (false, lastRepaint)
  else
    let diff := if jsTruthy lastRepaint then scrollTop - lastRepaint.getD 0
      else 0
    if jsTruthy lastRepaint = false ∨ diff < 0 ∨ diff > averageHeight then
      (true, some scrollTop)
    else (false, lastRepaint)

/-- C4, counterexample: with `_lastRepaint = 5`, scroll coordinate 4 and
median height 10, the code recomputes (any negative `diff` forces a render),
although the last coordinate is set and `|diff| = 1` does not exceed the
median height -- the claim says recomputation happens exactly when the last
coordinate is unset or `|diff|` exceeds the median. -/
theorem c4_counterexample :
    (renderTick 4 (some 5) 100 10).1 = true ∧
    (some (5 : ℤ)) ≠ (none : Option ℤ) ∧ |(4 : ℤ) - 5| ≤ 10 := by
  refine ⟨by decide, by decide, by decide⟩

/-- C4 (amended): the tick skips when the coordinate equals `_lastRepaint`
or the scroll height is zero; otherwise it recomputes exactly when
`_lastRepaint` is unset-or-zero (falsy), or the signed difference is
negative (any backward scroll), or it exceeds the median height; after a
recomputation `_lastRepaint` is the coordinate used, and a skipped tick
leaves it unchanged. -/
theorem c4_frame_gate (scrollTop : ℤ) (lastRepaint : Option ℤ)
    (scrollHeight averageHeight : ℤ) :
    (lastRepaint = some scrollTop ∨ scrollHeight = 0 →
      renderTick scrollTop lastRepaint scrollHeight averageHeight =
        (false, lastRepaint)) ∧
    (¬ (lastRepaint = some scrollTop ∨ scrollHeight = 0) →
      ((renderTick scrollTop lastRepaint scrollHeight averageHeight).1 =
          true ↔
        jsTruthy lastRepaint = false ∨
          scrollTop - lastRepaint.getD 0 < 0 ∨
          scrollTop - lastRepaint.getD 0 > averageHeight)) ∧
    ((renderTick scrollTop lastRepaint scrollHeight averageHeight).1 =
        true →
      (renderTick scrollTop lastRepaint scrollHeight averageHeight).2 =
        some scrollTop) ∧
    ((renderTick scrollTop lastRepaint scrollHeight averageHeight).1 =
        false →
      (renderTick scrollTop lastRepaint scrollHeight averageHeight).2 =
        lastRepaint) := by
  by_cases hg : lastRepaint = some scrollTop ∨ scrollHeight = 0
  · refine ⟨fun _ => by simp [renderTick, hg], fun hng => absurd hg hng,
      ?_, ?_⟩
    · intro hr
      rw [renderTick, if_pos hg] at hr
      simp at hr
    · intro _
      rw [renderTick, if_pos hg]
  · have hbase : renderTick scrollTop lastRepaint scrollHeight averageHeight =
        if jsTruthy lastRepaint = false ∨
            (if jsTruthy lastRepaint then scrollTop - lastRepaint.getD 0
              else 0) < 0 ∨
            (if jsTruthy lastRepaint then scrollTop - lastRepaint.getD 0
              else 0) > averageHeight then
          (true, some scrollTop)
        else (false, lastRepaint) := by
      rw [renderTick, if_neg hg]
    by_cases ht : jsTruthy lastRepaint = false
    · refine ⟨fun h => absurd h hg, fun _ => ?_, ?_, ?_⟩
      · rw [hbase, if_pos (Or.inl ht)]
        simp [ht]
      · intro _
        rw [hbase, if_pos (Or.inl ht)]
      · intro hr
        rw [hbase, if_pos (Or.inl ht)] at hr
        simp at hr
    · have ht' : jsTruthy lastRepaint = true := by
        cases h : jsTruthy lastRepaint
        · exact absurd h ht
        · rfl
      have hdiff : (if jsTruthy lastRepaint then
          scrollTop - lastRepaint.getD 0 else 0) =
            scrollTop - lastRepaint.getD 0 := by
        rw [ht']
        simp
      by_cases hc : scrollTop - lastRepaint.getD 0 < 0 ∨
          scrollTop - lastRepaint.getD 0 > averageHeight
      · refine ⟨fun h => absurd h hg, fun _ => ?_, ?_, ?_⟩
        · constructor
          · intro _
            exact Or.inr hc
          · intro _
            rw [hbase, hdiff, if_pos (Or.inr hc)]
        · intro _
          rw [hbase, hdiff, if_pos (Or.inr hc)]
        · intro hr
          rw [hbase, hdiff, if_pos (Or.inr hc)] at hr
          simp at hr
      · have hnone : ¬ (jsTruthy lastRepaint = false ∨
            scrollTop - lastRepaint.getD 0 < 0 ∨
            scrollTop - lastRepaint.getD 0 > averageHeight) := by
          intro hcon
          rcases hcon with h | h
          · exact ht h
          · exact hc h
        refine ⟨fun h => absurd h hg, fun _ => ?_, ?_, ?_⟩
        · constructor
          · intro hr
            rw [hbase, hdiff, if_neg hnone] at hr
            simp at hr
          · intro h
            exact absurd h hnone
        · intro hr
          rw [hbase, hdiff, if_neg hnone] at hr
          simp at hr
        · intro _
          rw [hbase, hdiff, if_neg hnone]

/-- Witness for C4 at a forward jump of 25 past a median of 10. -/
theorem c4_witness :
    (renderTick 30 (some 5) 100 10).1 = true ∧
    (renderTick 30 (some 5) 100 10).2 = some 30 := by
  have h := c4_frame_gate 30 (some 5) 100 10
  have h1 : (renderTick 30 (some 5) 100 10).1 = true :=
    (h.2.1 (by decide)).mpr (by decide)
  exact ⟨h1, h.2.2.1 h1⟩

/-! ## C6: configuration validation in `refresh`
(src/unnamed/part_001 lines 104-146; src/unnamed/part_000 lines 62-104 is
identical for the paths modelled here). -/

/-- JavaScript values relevant to the configuration surface. -/
inductive JVal where
  | num (z : ℤ)
  | nan
  | arr (l : List ℤ)
  | fn
  | boolv (b : Bool)
  | undef
  deriving DecidableEq, Repr

/-- `isNumber(x)`: a number that is not `NaN`. -/
def isNumberJ : JVal → Bool
  | .num _ => true
  | _ => false

/-- `typeof x == 'boolean'`. -/
def isBoolJ : JVal → Bool
  | .boolv _ => true
  | _ => false

/-- `x != null` on an optionally-present field (absent, `undefined` and
`null` are all excluded by the loose comparison). -/
def providedNonNull : Option JVal → Bool
  | some .undef => false
  | some _ => true
  | none => false

/-- The configuration fields read by `refresh`. -/
structure Cfg where
  generate : JVal
  itemCount : JVal
  itemHeight : JVal
  useFragment : JVal
  deriving DecidableEq, Repr

/-- A `newConfig` argument: each field is either absent or a value. -/
structure NewCfg where
  generate : Option JVal
  itemCount : Option JVal
  itemHeight : Option JVal
  useFragment : Option JVal
  deriving DecidableEq, Repr

/-- `Object.assign(config, newConfig)`: provided fields overwrite. -/
def mergeCfg (c : Cfg) (n : NewCfg) : Cfg :=
  ⟨n.generate.getD c.generate, n.itemCount.getD c.itemCount,
    n.itemHeight.getD c.itemHeight, n.useFragment.getD c.useFragment⟩

/-- The instance state touched by the validation phase of `refresh`. -/
structure RState where
  config : Cfg
  itemHeights : Option (List ℤ)
  itemPositions : Option (List ℤ)
  lastRepaint : Option ℤ
  deriving DecidableEq, Repr

/-- The configuration errors thrown by `refresh`. -/
inductive CfgError where
  | missingGenerate
  | missingItemCount
  | missingItemHeight
  deriving DecidableEq, Repr

/-- `config.itemCount` as an array size. -/
def itemCountNat (c : Cfg) : ℕ :=
  match c.itemCount with
  | .num z => z.toNat
  | _ => 0

/-- The merged configuration after the `useFragment` default (lines 123-128
of part_001): `Object.assign` first, then a non-boolean `useFragment`
becomes `true`. -/
def refreshCfg2 (st : RState) (n : NewCfg) : Cfg :=
  if isBoolJ (mergeCfg st.config n).useFragment then mergeCfg st.config n
  else { mergeCfg st.config n with useFragment := .boolv true }

/-- Validation and height-table rebuild of `refresh` (lines 130-145 of
part_001), on the already-merged configuration: the thrown error (if any)
and the replacement `_itemHeights` (when the call provided `itemCount` or
`itemHeight` and validation passed). -/
def refreshOutcome (c2 : Cfg) (n : NewCfg) :
    Option CfgError × Option (List ℤ) :=
  if c2.generate ≠ JVal.fn then (some .missingGenerate, none)
  else if isNumberJ c2.itemCount = false then (some .missingItemCount, none)
  else if providedNonNull n.itemCount || providedNonNull n.itemHeight then
    match c2.itemHeight with
    | .num h => (none, some (List.replicate (itemCountNat c2) h))
    | .arr l => (none, some l)
    | _ => (some .missingItemHeight, none)
  else (none, none)

/-- The configuration-processing phase of `refresh` (lines 121-146 of
part_001): merge (which mutates the stored configuration before any check),
validate, and rebuild the height table only on the success paths that reach
it.  The returned pair is the thrown error (if any) and the state after the
call. -/
def refreshConfig (st : RState) (newCfg : Option NewCfg) :
    Option CfgError × RState :=
  match newCfg with
  | none => (none, st)
  | some n =>
    ((refreshOutcome (refreshCfg2 st n) n).1,
      { st with
        config := refreshCfg2 st n,
        itemHeights :=
          match (refreshOutcome (refreshCfg2 st n) n).2 with
          | some l => some l
          | none => st.itemHeights })

/-- On every error path of the validation, the height table is not
rebuilt. -/
lemma refreshOutcome_error (c2 : Cfg) (n : NewCfg) (e : CfgError)
    (h : (refreshOutcome c2 n).1 = some e) : (refreshOutcome c2 n).2 = none := by
  unfold refreshOutcome at h ⊢
  by_cases h1 : c2.generate ≠ JVal.fn
  · simp [h1]
  · rw [if_neg h1] at h ⊢
    by_cases h2 : isNumberJ c2.itemCount = false
    · simp [h2]
    · rw [if_neg h2] at h ⊢
      by_cases h3 : (providedNonNull n.itemCount ||
          providedNonNull n.itemHeight) = true
      · rw [if_pos h3] at h ⊢
        cases hh : c2.itemHeight <;> rw [hh] at h <;> simp_all
      · rw [if_neg h3] at h
        simp at h

/-- A healthy instance: 5 rows of height 10 already measured. -/
def c6State : RState :=
  ⟨⟨.fn, .num 5, .num 10, .boolv true⟩, some (List.replicate 5 10),
    some (List.replicate 5 0), some 0⟩

/-- C6, counterexample: `refresh({itemCount: NaN})` on a healthy instance
throws the `itemCount` configuration error, but the instance's stored
configuration has already absorbed the invalid value, because
`Object.assign(config, newConfig)` runs before any validation -- the claim
that the failing call leaves the configuration unchanged is false. -/
theorem c6_counterexample :
    (refreshConfig c6State (some ⟨none, some JVal.nan, none, none⟩)).1 =
      some CfgError.missingItemCount ∧
    (refreshConfig c6State (some ⟨none, some JVal.nan, none, none⟩)).2.config ≠
      c6State.config := by
  refine ⟨by decide, by decide⟩

/-- C6 (amended): a failing `refresh` call surfaces the configuration error
immediately and leaves the measured heights, the position table and the
render state untouched; only the stored configuration may already reflect
the merged (invalid) options. -/
theorem c6_error_leaves_tables (st : RState) (n : Option NewCfg)
    (e : CfgError) (herr : (refreshConfig st n).1 = some e) :
    (refreshConfig st n).2.itemHeights = st.itemHeights ∧
    (refreshConfig st n).2.itemPositions = st.itemPositions ∧
    (refreshConfig st n).2.lastRepaint = st.lastRepaint := by
  cases n with
  | none => simp [refreshConfig] at herr
  | some nc =>
    simp only [refreshConfig] at herr ⊢
    rw [refreshOutcome_error _ _ e herr]
    simp

/-- Witness for C6 on the concrete failing `refresh({itemCount: NaN})`. -/
theorem c6_witness :
    (refreshConfig c6State (some ⟨none, some JVal.nan, none, none⟩)).2.itemHeights =
      c6State.itemHeights ∧
    (refreshConfig c6State (some ⟨none, some JVal.nan, none, none⟩)).2.itemPositions =
      c6State.itemPositions ∧
    (refreshConfig c6State (some ⟨none, some JVal.nan, none, none⟩)).2.lastRepaint =
      c6State.lastRepaint :=
  c6_error_leaves_tables c6State (some ⟨none, some JVal.nan, none, none⟩)
    CfgError.missingItemCount (by decide)


/-! ## C7 and C10: window search and chunk clamping
(src/unnamed/part_001 `_getFrom` lines 360-368, `_getReverseFrom`
lines 370-378, `_renderChunk` lines 246-295; part_000 `_renderChunk`
lines 183-233 is the forward-only special case). -/

/-- The `while (this._itemPositions[i] < scrollTop) i++` loop of `_getFrom`:
walks the position table from 0 and stops at the first entry not below
`scrollTop`; reading past the end yields `undefined`, whose comparison is
false, so the loop also stops there (returning `itemCount`). -/
def getFromGo (scrollTop : ℤ) : List ℤ → ℕ → ℕ
  | [], i => i
  | p :: rest, i => if p < scrollTop then getFromGo scrollTop rest (i + 1) else i

/-- `_getFrom(scrollTop)`. -/
def getFrom (positions : List ℤ) (scrollTop : ℤ) : ℕ :=
  getFromGo scrollTop positions 0

/-- The `while (i > 0 && this._itemPositions[i] < scrollTop + containerSize)`
loop of `_getReverseFrom`, walking down from `i`. -/
def getReverseFromGo (positions : List ℤ) (bound : ℤ) : ℕ → ℕ
  | 0 => 0
  | i + 1 =>
    if positions.getD (i + 1) 0 < bound then getReverseFromGo positions bound i
    else i + 1

/-- `_getReverseFrom(scrollTop)`: starts at `itemCount - 1` (which is `-1`
when the list is empty, making the loop guard `i > 0` false at once). -/
def getReverseFrom (positions : List ℤ) (itemCount : ℕ)
    (scrollTop containerSize : ℤ) : ℤ :=
  if itemCount = 0 then -1
  else (getReverseFromGo positions (scrollTop + containerSize)
    (itemCount - 1) : ℤ)

/-- The raw `from` of `_renderChunk` before clamping (line 252):
`_getFrom(scrollTop) - 1` forward, `_getReverseFrom(scrollTop)` in reverse
mode. -/
def chunkRawFrom (reverse : Bool) (positions : List ℤ) (itemCount : ℕ)
    (scrollTop containerSize : ℤ) : ℤ :=
  if reverse then getReverseFrom positions itemCount scrollTop containerSize
  else (getFrom positions scrollTop : ℤ) - 1

/-- The `[from, to)` range resolved by `_renderChunk` (lines 252-268):
`from` is zeroed when negative or within one screenful of 0; `to` is
`from + cachedItemsLen`, snapped to `itemCount` when it (or the next chunk
boundary) would pass the row count. -/
def renderChunkRange (reverse : Bool) (positions : List ℤ) (itemCount : ℕ)
    (scrollTop containerSize screenItemsLen cachedItemsLen : ℤ) : ℤ × ℤ :=
  let from0 := chunkRawFrom reverse positions itemCount scrollTop containerSize
  let from1 := if from0 < 0 ∨ from0 - screenItemsLen < 0 then 0 else from0
  let to0 := from1 + cachedItemsLen
  let to1 := if to0 > (itemCount : ℤ) ∨ to0 + cachedItemsLen > (itemCount : ℤ)
    then (itemCount : ℤ) else to0
  (from1, to1)

/-- C7: the resolved chunk range is clamped to the list bounds: a negative
raw `from` is clamped to 0 (and the result is never negative), a raw `to`
past the row count is clamped to the row count (and the result never exceeds
it), and an empty list resolves to the empty range `[0, 0)`. -/
theorem c7_chunk_clamping (reverse : Bool) (positions : List ℤ)
    (itemCount : ℕ) (scrollTop containerSize screenItemsLen cachedItemsLen : ℤ)
    (hlen : positions.length = itemCount) (hc : 0 ≤ cachedItemsLen) :
    0 ≤ (renderChunkRange reverse positions itemCount scrollTop containerSize
      screenItemsLen cachedItemsLen).1 ∧
    (chunkRawFrom reverse positions itemCount scrollTop containerSize < 0 →
      (renderChunkRange reverse positions itemCount scrollTop containerSize
        screenItemsLen cachedItemsLen).1 = 0) ∧
    (renderChunkRange reverse positions itemCount scrollTop containerSize
      screenItemsLen cachedItemsLen).2 ≤ (itemCount : ℤ) ∧
    ((renderChunkRange reverse positions itemCount scrollTop containerSize
        screenItemsLen cachedItemsLen).1 + cachedItemsLen > (itemCount : ℤ) →
      (renderChunkRange reverse positions itemCount scrollTop containerSize
        screenItemsLen cachedItemsLen).2 = (itemCount : ℤ)) ∧
    (itemCount = 0 →
      (renderChunkRange reverse positions itemCount scrollTop containerSize
          screenItemsLen cachedItemsLen).1 = 0 ∧
        (renderChunkRange reverse positions itemCount scrollTop containerSize
          screenItemsLen cachedItemsLen).2 = 0) := by
  set f0 := chunkRawFrom reverse positions itemCount scrollTop containerSize
    with hf0
  have hfrom : (renderChunkRange reverse positions itemCount scrollTop
      containerSize screenItemsLen cachedItemsLen).1 =
      if f0 < 0 ∨ f0 - screenItemsLen < 0 then 0 else f0 := rfl
  have hto : (renderChunkRange reverse positions itemCount scrollTop
      containerSize screenItemsLen cachedItemsLen).2 =
      if (if f0 < 0 ∨ f0 - screenItemsLen < 0 then 0 else f0) +
            cachedItemsLen > (itemCount : ℤ) ∨
          (if f0 < 0 ∨ f0 - screenItemsLen < 0 then 0 else f0) +
            cachedItemsLen + cachedItemsLen > (itemCount : ℤ)
        then (itemCount : ℤ)
        else (if f0 < 0 ∨ f0 - screenItemsLen < 0 then 0 else f0) +
          cachedItemsLen := rfl
  refine ⟨?_, ?_, ?_, ?_, ?_⟩
  · rw [hfrom]
    by_cases h : f0 < 0 ∨ f0 - screenItemsLen < 0
    · rw [if_pos h]
    · rw [if_neg h]
      omega
  · intro hneg
    rw [hfrom, if_pos (Or.inl hneg)]
  · rw [hto]
    by_cases h : (if f0 < 0 ∨ f0 - screenItemsLen < 0 then 0 else f0) +
          cachedItemsLen > (itemCount : ℤ) ∨
        (if f0 < 0 ∨ f0 - screenItemsLen < 0 then 0 else f0) +
          cachedItemsLen + cachedItemsLen > (itemCount : ℤ)
    · rw [if_pos h]
    · rw [if_neg h]
      omega
  · intro hbig
    rw [hfrom] at hbig
    rw [hto, if_pos (Or.inl hbig)]
  · intro h0
    subst h0
    have hnil : positions = [] := by
      simpa using hlen
    have hraw : f0 = -1 := by
      rw [hf0]
      cases reverse with
      | false => simp [chunkRawFrom, hnil, getFrom, getFromGo]
      | true => simp [chunkRawFrom, getReverseFrom]
    constructor
    · rw [hfrom, if_pos (Or.inl (by omega))]
    · rw [hto]
      have hz : (if f0 < 0 ∨ f0 - screenItemsLen < 0 then (0 : ℤ) else f0) =
          0 := if_pos (Or.inl (by omega))
      rw [hz]
      by_cases h : (0 : ℤ) + cachedItemsLen > ((0 : ℕ) : ℤ) ∨
          (0 : ℤ) + cachedItemsLen + cachedItemsLen > ((0 : ℕ) : ℤ)
      · rw [if_pos h]
        simp
      · rw [if_neg h]
        omega

/-- Witness for C7: three rows at positions 0, 10, 20, scrolled to 15. -/
theorem c7_witness :
    0 ≤ (renderChunkRange false [0, 10, 20] 3 15 10 1 6).1 ∧
    (renderChunkRange false [0, 10, 20] 3 15 10 1 6).2 ≤ 3 := by
  have h := c7_chunk_clamping false [0, 10, 20] 3 15 10 1 6 (by decide)
    (by decide)
  exact ⟨h.1, h.2.2.1⟩

/-- The downward search never rises above its start index. -/
lemma getReverseFromGo_le (positions : List ℤ) (bound : ℤ) :
    ∀ i, getReverseFromGo positions bound i ≤ i := by
  intro i
  induction i with
  | zero => simp [getReverseFromGo]
  | succ j ih =>
    rw [getReverseFromGo]
    by_cases h : positions.getD (j + 1) 0 < bound
    · rw [if_pos h]
      omega
    · rw [if_neg h]

/-- The downward search only reads cells at indices at most its start
index. -/
lemma getReverseFromGo_append (positions junk : List ℤ) (bound : ℤ) :
    ∀ i, i < positions.length →
      getReverseFromGo (positions ++ junk) bound i =
        getReverseFromGo positions bound i := by
  intro i
  induction i with
  | zero => intro _; simp [getReverseFromGo]
  | succ j ih =>
    intro hi
    rw [getReverseFromGo, getReverseFromGo,
      List.getD_append _ _ _ _ hi]
    by_cases h : positions.getD (j + 1) 0 < bound
    · rw [if_pos h, if_pos h, ih (by omega)]
    · rw [if_neg h, if_neg h]

/-- When every stored position is below the coordinate, the forward search
walks off the end of the table. -/
lemma getFromGo_all_below (scrollTop : ℤ) :
    ∀ (L : List ℤ) (i : ℕ), (∀ p ∈ L, p < scrollTop) →
      getFromGo scrollTop L i = i + L.length := by
  intro L
  induction L with
  | nil => intro i _; simp [getFromGo]
  | cons p rest ih =>
    intro i hall
    rw [getFromGo, if_pos (hall p (List.mem_cons_self p rest))]
    rw [ih (i + 1) (fun q hq => hall q (List.mem_cons_of_mem p hq))]
    simp
    omega

/-- C10: for a nonempty list, `_getReverseFrom` always lands in
`[0, itemCount - 1]` and depends only on table cells at indices below
`itemCount` (it never reads past the table), whereas `_getFrom` returns the
out-of-range index `itemCount` whenever the coordinate is above every stored
position (the loop exits only on the `undefined` read past the end). -/
theorem c10_search_bounds (positions : List ℤ) (itemCount : ℕ)
    (scrollTop containerSize : ℤ) (hlen : positions.length = itemCount)
    (hpos : 1 ≤ itemCount) :
    0 ≤ getReverseFrom positions itemCount scrollTop containerSize ∧
    getReverseFrom positions itemCount scrollTop containerSize ≤
      (itemCount : ℤ) - 1 ∧
    (∀ junk : List ℤ,
      getReverseFrom (positions ++ junk) itemCount scrollTop containerSize =
        getReverseFrom positions itemCount scrollTop containerSize) ∧
    ((∀ p ∈ positions, p < scrollTop) →
      (getFrom positions scrollTop : ℤ) = (itemCount : ℤ)) := by
  have hne : ¬ itemCount = 0 := by omega
  refine ⟨?_, ?_, ?_, ?_⟩
  · rw [getReverseFrom, if_neg hne]
    positivity
  · rw [getReverseFrom, if_neg hne]
    have := getReverseFromGo_le positions (scrollTop + containerSize)
      (itemCount - 1)
    omega
  · intro junk
    rw [getReverseFrom, if_neg hne, getReverseFrom, if_neg hne,
      getReverseFromGo_append positions junk _ (itemCount - 1) (by omega)]
  · intro hall
    rw [getFrom, getFromGo_all_below scrollTop positions 0 hall]
    omega

/-- Witness for C10: positions 0 and 10, coordinate 11 above both. -/
theorem c10_witness :
    0 ≤ getReverseFrom [0, 10] 2 11 5 ∧
    getReverseFrom [0, 10] 2 11 5 ≤ 1 ∧
    (getFrom [0, 10] 11 : ℤ) = 2 := by
  have h := c10_search_bounds [0, 10] 2 11 5 (by decide) (by decide)
  exact ⟨h.1, h.2.1, h.2.2.2 (by decide)⟩


/-! ## C9: `_cachedItemsLen` across recomputes
(src/unnamed/part_001 `_computeScrollHeight` lines 319-358; part_000
lines 249-276 is identical for these quantities).

Heights are rationals (the even-count median halves a sum) and every
JavaScript number that can become `NaN` is an `Option ℚ` with `none` for
`NaN`: an out-of-range read of the sorted table is `undefined` (`none`),
arithmetic and `Math.max`/`Math.ceil` absorb `none`, and the truthiness
coercion `x || 0` maps `none` (and 0) to 0.  This matters because
`refresh({itemCount: 0, ...})` is a valid call whose median is `NaN`. -/

/-- Insertion into an ascending list, the building block of the sorted copy
`itemHeights.slice(0).sort((a, b) => a - b)`. -/
def insertAsc (x : ℚ) : List ℚ → List ℚ
  | [] => [x]
  | y :: ys => if x ≤ y then x :: y :: ys else y :: insertAsc x ys

/-- The ascending sorted copy of the height table (line 333). -/
def sortAsc : List ℚ → List ℚ
  | [] => []
  | x :: xs => insertAsc x (sortAsc xs)

/-- JavaScript `+` with `NaN` (and `undefined` operands) absorbed. -/
def jsAdd : Option ℚ → Option ℚ → Option ℚ
  | some a, some b => some (a + b)
  | _, _ => none

/-- JavaScript `/` with `NaN` absorbed (a zero divisor, which JavaScript
sends to `Infinity`, does not occur in the statements below). -/
def jsDiv : Option ℚ → Option ℚ → Option ℚ
  | some a, some b => some (a / b)
  | _, _ => none

/-- JavaScript `*` with `NaN` absorbed. -/
def jsMul : Option ℚ → Option ℚ → Option ℚ
  | some a, some b => some (a * b)
  | _, _ => none

/-- `Math.max`: `NaN` when either argument is `NaN`. -/
def jsMax : Option ℚ → Option ℚ → Option ℚ
  | some a, some b => some (max a b)
  | _, _ => none

/-- `Math.ceil`: `NaN` on `NaN`. -/
def jsCeil : Option ℚ → Option ℚ
  | some a => some ((⌈a⌉ : ℤ) : ℚ)
  | none => none

/-- The height median of `_computeScrollHeight` (lines 332-337): middle
entry of the sorted copy, or the mean of the two middle entries for an even
count.  On an empty table (`itemCount` 0) both reads are out of range and
the mean is `NaN` (`none`). -/
def medianHeight (itemHeights : List ℚ) : Option ℚ :=
  let sorted := sortAsc itemHeights
  let middle := itemHeights.length / 2
  if itemHeights.length % 2 = 0 then
    jsDiv (jsAdd (sorted.get? middle) (sorted.get? (middle - 1))) (some 2)
  else sorted.get? middle

/-- `_screenItemsLen = Math.ceil(containerSize / averageHeight)`
(line 341). -/
def screenItemsLen (itemHeights : List ℚ) (containerSize : ℚ) : Option ℚ :=
  jsCeil (jsDiv (some containerSize) (medianHeight itemHeights))

/-- The `_cachedItemsLen` update (line 344):
`Math.max(this._cachedItemsLen || 0, this._screenItemsLen * 3)`; the `|| 0`
turns an undefined or `NaN` previous value into 0. -/
def cachedItemsLenNext (itemHeights : List ℚ) (containerSize : ℚ)
    (cachedPrev : Option ℚ) : Option ℚ :=
  jsMax (some (cachedPrev.getD 0))
    (jsMul (screenItemsLen itemHeights containerSize) (some 3))

/-- `_cachedItemsLen` after a sequence of `_computeScrollHeight` calls, each
with its height table and measured container size. -/
def cachedAfterSteps (cached0 : Option ℚ) : List (List ℚ × ℚ) → Option ℚ
  | [] => cached0
  | step :: rest =>
    cachedAfterSteps (cachedItemsLenNext step.1 step.2 cached0) rest

/-- C9, counterexample to monotonicity across every sequence: two rows of
height 10 in a viewport of 100 set `_cachedItemsLen` to 30; a refresh to an
empty height table (`itemCount` 0, a valid call) makes the median and hence
`_cachedItemsLen` `NaN`; the next recompute evaluates `NaN || 0` to 0 and
lands at 3 -- far below the earlier 30, so the cached window size does
shrink. -/
theorem c9_counterexample :
    cachedAfterSteps (some 0) [([10, 10], 100)] = some 30 ∧
    cachedAfterSteps (some 0) [([10, 10], 100), ([], 100)] = none ∧
    cachedAfterSteps (some 0) [([10, 10], 100), ([], 100), ([10, 10], 1)] =
      some 3 ∧
    ¬ ((30 : ℚ) ≤ 3) := by
  have hm : medianHeight [10, 10] = some 10 := by
    simp [medianHeight, sortAsc, insertAsc, jsAdd, jsDiv]
  have hs100 : screenItemsLen [10, 10] 100 = some 10 := by
    rw [screenItemsLen, hm]
    simp [jsDiv, jsCeil]
    norm_num
  have hs1 : screenItemsLen [10, 10] 1 = some 1 := by
    rw [screenItemsLen, hm]
    simp [jsDiv, jsCeil]
    norm_num [Int.ceil_eq_iff]
  have hmnil : medianHeight [] = none := by
    simp [medianHeight, sortAsc, jsAdd, jsDiv]
  have h1 : cachedItemsLenNext [10, 10] 100 (some 0) = some 30 := by
    rw [cachedItemsLenNext, hs100]
    simp [jsMul, jsMax]
    norm_num
  have h2 : cachedItemsLenNext [] 100 (some 30) = none := by
    rw [cachedItemsLenNext, screenItemsLen, hmnil]
    simp [jsDiv, jsCeil, jsMul, jsMax]
  have h3 : cachedItemsLenNext [10, 10] 1 none = some 3 := by
    rw [cachedItemsLenNext, hs1]
    simp [jsMul, jsMax]
  refine ⟨?_, ?_, ?_, by norm_num⟩
  · simp [cachedAfterSteps, h1]
  · simp [cachedAfterSteps, h1, h2]
  · simp [cachedAfterSteps, h1, h2, h3]

/-- Inserting grows the length by one. -/
lemma insertAsc_length (x : ℚ) : ∀ l : List ℚ,
    (insertAsc x l).length = l.length + 1 := by
  intro l
  induction l with
  | nil => rfl
  | cons y ys ih =>
    rw [insertAsc]
    by_cases h : x ≤ y
    · rw [if_pos h]; rfl
    · rw [if_neg h]
      simp [ih]

/-- The sorted copy has the table's length. -/
lemma sortAsc_length : ∀ l : List ℚ, (sortAsc l).length = l.length := by
  intro l
  induction l with
  | nil => rfl
  | cons x xs ih =>
    rw [sortAsc, insertAsc_length, ih]
    rfl

/-- On a nonempty table the median reads are in range, so it is a number. -/
lemma medianHeight_isSome (hs : List ℚ) (h : hs ≠ []) :
    ∃ m, medianHeight hs = some m := by
  have hlen : 0 < hs.length := List.length_pos.mpr h
  have hsl : (sortAsc hs).length = hs.length := sortAsc_length hs
  unfold medianHeight
  by_cases he : hs.length % 2 = 0
  · rw [if_pos he]
    have h1 : hs.length / 2 < (sortAsc hs).length := by
      rw [hsl]; omega
    have h2 : hs.length / 2 - 1 < (sortAsc hs).length := by
      rw [hsl]; omega
    rw [List.get?_eq_get h1, List.get?_eq_get h2]
    exact ⟨_, rfl⟩
  · rw [if_neg he]
    have h1 : hs.length / 2 < (sortAsc hs).length := by
      rw [hsl]; omega
    rw [List.get?_eq_get h1]
    exact ⟨_, rfl⟩

/-- On a nonempty table one recompute is exactly
`max(previous, 3 * screenItemsLen)`. -/
lemma cachedItemsLenNext_some (hs : List ℚ) (cs c : ℚ) (h : hs ≠ []) :
    ∃ s : ℚ, screenItemsLen hs cs = some s ∧
      cachedItemsLenNext hs cs (some c) = some (max c (s * 3)) := by
  obtain ⟨m, hm⟩ := medianHeight_isSome hs h
  refine ⟨((⌈cs / m⌉ : ℤ) : ℚ), ?_, ?_⟩
  · rw [screenItemsLen, hm]; rfl
  · rw [cachedItemsLenNext, screenItemsLen, hm]; rfl

/-- Folding nonempty-table recomputes keeps a number and never shrinks. -/
lemma cachedAfterSteps_some (steps : List (List ℚ × ℚ)) :
    ∀ c0 : ℚ, (∀ p ∈ steps, p.1 ≠ []) →
      ∃ c', cachedAfterSteps (some c0) steps = some c' ∧ c0 ≤ c' := by
  induction steps with
  | nil => intro c0 _; exact ⟨c0, rfl, le_refl c0⟩
  | cons step rest ih =>
    intro c0 hne
    obtain ⟨s, _hs, hnext⟩ := cachedItemsLenNext_some step.1 step.2 c0
      (hne step (List.mem_cons_self step rest))
    obtain ⟨c', hc1, hc2⟩ := ih (max c0 (s * 3))
      (fun p hp => hne p (List.mem_cons_of_mem step hp))
    refine ⟨c', ?_, le_trans (le_max_left _ _) hc2⟩
    rw [cachedAfterSteps, hnext, hc1]

/-- C9 (amended): every `_computeScrollHeight` on a nonempty height table
sets `_cachedItemsLen` to the maximum of its previous value and three
screenfuls, so across any sequence of such recomputes the cached window
size stays a number and never shrinks, even when the viewport or the median
height shrinks; a recompute on an empty table instead poisons it to `NaN`,
after which the `|| 0` coercion restarts the maximum from 0 (the
counterexample). -/
theorem c9_cached_monotone (c0 : ℚ) (steps : List (List ℚ × ℚ))
    (hne : ∀ p ∈ steps, p.1 ≠ []) :
    (cachedAfterSteps (some c0) steps).isSome = true ∧
    c0 ≤ (cachedAfterSteps (some c0) steps).getD 0 ∧
    (∀ hs cs c, hs ≠ [] →
      ∃ s : ℚ, screenItemsLen hs cs = some s ∧
        cachedItemsLenNext hs cs (some c) = some (max c (s * 3))) := by
  obtain ⟨c', hc1, hc2⟩ := cachedAfterSteps_some steps c0 hne
  rw [hc1]
  exact ⟨rfl, hc2, fun hs cs c h => cachedItemsLenNext_some hs cs c h⟩

/-- Witness for C9: two recomputes on nonempty tables, the second on a
smaller list and viewport. -/
theorem c9_witness :
    (cachedAfterSteps (some 0) [([10, 20], 100), ([5], 50)]).isSome = true ∧
    (0 : ℚ) ≤
      (cachedAfterSteps (some 0) [([10, 20], 100), ([5], 50)]).getD 0 := by
  have h := c9_cached_monotone 0 [([10, 20], 100), ([5], 50)] (by decide)
  exact ⟨h.1, h.2.1⟩

end Hyper
